import Mathlib

/-!
# Verification of the rusty-library-ddd loan core

Shallow embedding of the event-sourced library-loan core:

* `src/domain/value_objects.rs` — identifier newtypes and `ExtensionCount`
* `src/domain/events.rs` — the four domain events and `DomainEvent`
* `src/domain/loan.rs` — the legacy `Loan` record, the `LoanV2` sum type,
  the pure transition functions and the `apply_event` / `replay_events` fold
* `src/adapters/postgres/event_store.rs` — the versioned append-only log
* `src/adapters/postgres/projector.rs` and
  `src/adapters/postgres/loan_read_model.rs` — the read-model projection
* `src/application/loan/overdue_detection.rs` — the overdue sweep

Timestamps (`chrono::DateTime<Utc>`) are embedded as `Int` ticks;
`chrono::Duration::days n` becomes `n * 86400` ticks.  Functions that panic
in Rust (`apply_event` on an invalid transition, a failed `assert_eq!` or
`expect`) are totalized into `Except IntegrityFault`.
-/

namespace RustyLibrary

/-- One day in timestamp ticks (`chrono::Duration::days 1`). -/
def dayTicks : Int := 86400

/-- `chrono::Duration::days n` as ticks. -/
def durationDays (n : Int) : Int := n * dayTicks

/-- `LOAN_PERIOD_DAYS` from `src/domain/loan.rs`. -/
def LOAN_PERIOD_DAYS : Int := 14

/-- `LoanId` (`src/domain/value_objects.rs`): an opaque UUID, embedded as a
`Nat`-valued newtype with decidable equality. -/
structure LoanId where
  uuid : Nat
deriving DecidableEq, Repr

/-- `BookId` (`src/domain/value_objects.rs`). -/
structure BookId where
  uuid : Nat
deriving DecidableEq, Repr

/-- `MemberId` (`src/domain/value_objects.rs`). -/
structure MemberId where
  uuid : Nat
deriving DecidableEq, Repr

/-- `StaffId` (`src/domain/value_objects.rs`). -/
structure StaffId where
  uuid : Nat
deriving DecidableEq, Repr

/-- `ExtensionError` (`src/domain/value_objects.rs`). -/
inductive ExtensionError where
  | LimitExceeded
deriving DecidableEq, Repr

/-- `ExtensionCount` (`src/domain/value_objects.rs`): a `u8` newtype with a
private field, only constructible through `new` / `increment` / `try_from`,
all of which keep the value in `{0, 1}`.  The embedding carries that
invariant as a field, mirroring the abstraction boundary of the Rust type
(nothing in the program deserializes an `ExtensionCount` directly). -/
structure ExtensionCount where
  val : Nat
  inv : val ≤ 1
deriving Repr

instance : DecidableEq ExtensionCount := fun a b =>
  decidable_of_iff (a.val = b.val) (by
    cases a; cases b; simp [ExtensionCount.mk.injEq])

namespace ExtensionCount

/-- `ExtensionCount::new()`: zero extensions. -/
def new : ExtensionCount := ⟨0, by omega⟩

/-- `ExtensionCount::increment()`: fails once the count reached 1. -/
def increment (c : ExtensionCount) : Except ExtensionError ExtensionCount :=
  if h : c.val ≥ 1 then .error .LimitExceeded
  else .ok ⟨c.val + 1, by omega⟩

/-- `ExtensionCount::value()`. -/
def value (c : ExtensionCount) : Nat := c.val

/-- `ExtensionCount::can_extend()`. -/
def can_extend (c : ExtensionCount) : Bool := c.val < 1

/-- `ExtensionCount::try_from(u8)`: rejects values above 1. -/
def tryFrom (v : Nat) : Except ExtensionError ExtensionCount :=
  if h : v > 1 then .error .LimitExceeded
  else .ok ⟨v, by omega⟩

end ExtensionCount

/-- Event `BookLoaned` (`src/domain/events.rs`). -/
structure BookLoaned where
  loan_id : LoanId
  book_id : BookId
  member_id : MemberId
  loaned_at : Int
  due_date : Int
  loaned_by : StaffId
deriving DecidableEq, Repr

/-- Event `LoanExtended` (`src/domain/events.rs`).  `extension_count` is a
raw `u8` in the Rust event; only its comparison with 1 matters here. -/
structure LoanExtended where
  loan_id : LoanId
  old_due_date : Int
  new_due_date : Int
  extended_at : Int
  extension_count : Nat
deriving DecidableEq, Repr

/-- Event `BookReturned` (`src/domain/events.rs`). -/
structure BookReturned where
  loan_id : LoanId
  book_id : BookId
  member_id : MemberId
  returned_at : Int
  was_overdue : Bool
deriving DecidableEq, Repr

/-- Event `LoanBecameOverdue` (`src/domain/events.rs`). -/
structure LoanBecameOverdue where
  loan_id : LoanId
  book_id : BookId
  member_id : MemberId
  due_date : Int
  detected_at : Int
deriving DecidableEq, Repr

/-- `DomainEvent` (`src/domain/events.rs`). -/
inductive DomainEvent where
  | bookLoaned (e : BookLoaned)
  | loanExtended (e : LoanExtended)
  | bookReturned (e : BookReturned)
  | loanBecameOverdue (e : LoanBecameOverdue)
deriving DecidableEq, Repr

/-- Modelled from the spec: the domain-layer `LoanStatus` enum used by the
legacy `Loan` record.  Its defining file is not present under `src/`; the
spec (§3, §6) fixes the three states `{Active, Overdue, Returned}`, and the
callers in `src/domain/loan.rs` use the predicates `is_returned` and
`is_overdue`.  The read-model enum of `src/ports/loan_read_model.rs` has
the same three variants and is shared here. -/
inductive LoanStatus where
  | Active
  | Overdue
  | Returned
deriving DecidableEq, Repr

namespace LoanStatus

/-- Modelled from the spec: `LoanStatus::is_returned` — true exactly on the
`Returned` variant. -/
def is_returned : LoanStatus → Bool
  | .Returned => true
  | _ => false

/-- Modelled from the spec: `LoanStatus::is_overdue` — true exactly on the
`Overdue` variant. -/
def is_overdue : LoanStatus → Bool
  | .Overdue => true
  | _ => false

/-- `LoanStatus::as_str` (`src/ports/loan_read_model.rs`). -/
def as_str : LoanStatus → String
  | .Active => "active"
  | .Overdue => "overdue"
  | .Returned => "returned"

end LoanStatus

/-- `LoanCore` (`src/domain/loan.rs`): fields shared by every V2 state. -/
structure LoanCore where
  loan_id : LoanId
  book_id : BookId
  member_id : MemberId
  loaned_at : Int
  due_date : Int
  extension_count : ExtensionCount
  created_by : StaffId
  created_at : Int
  updated_at : Int
deriving DecidableEq, Repr

/-- `ActiveLoan` (`src/domain/loan.rs`). -/
structure ActiveLoan where
  core : LoanCore
deriving DecidableEq, Repr

/-- `OverdueLoan` (`src/domain/loan.rs`). -/
structure OverdueLoan where
  core : LoanCore
deriving DecidableEq, Repr

/-- `ReturnedLoan` (`src/domain/loan.rs`): `returned_at` exists only here. -/
structure ReturnedLoan where
  core : LoanCore
  returned_at : Int
deriving DecidableEq, Repr

/-- `LoanV2` (`src/domain/loan.rs`): the sum type over the three states.
The application and adapter layers of this snapshot refer to it simply as
`Loan` (`domain::loan::Loan::Active`, …). -/
inductive LoanV2 where
  | active (l : ActiveLoan)
  | overdue (l : OverdueLoan)
  | returned (l : ReturnedLoan)
deriving DecidableEq, Repr

/-- The legacy record-based `Loan` (`src/domain/loan.rs`). -/
structure Loan where
  loan_id : LoanId
  book_id : BookId
  member_id : MemberId
  loaned_at : Int
  due_date : Int
  returned_at : Option Int
  extension_count : ExtensionCount
  status : LoanStatus
  created_by : StaffId
  created_at : Int
  updated_at : Int
deriving DecidableEq, Repr

/-- `LoanBookError` (`src/domain/errors.rs`): an empty enum — creating a
loan can never fail at the domain layer. -/
inductive LoanBookError
deriving DecidableEq

/-- `ExtendLoanError` (`src/domain/errors.rs`). -/
inductive ExtendLoanError where
  | AlreadyReturned
  | ExtensionLimitExceeded
  | CannotExtendOverdue
deriving DecidableEq, Repr

/-- `ReturnBookError` (`src/domain/errors.rs`). -/
inductive ReturnBookError where
  | AlreadyReturned
deriving DecidableEq, Repr

/-- `loan_book` (`src/domain/loan.rs`): the legacy record-based creation.
`LoanId::new()` draws a fresh UUID; the fresh id is passed as `loan_id`. -/
def loan_book (book_id : BookId) (member_id : MemberId) (loaned_at : Int)
    (staff_id : StaffId) (loan_id : LoanId) :
    Except LoanBookError (Loan × BookLoaned) :=
  let due_date := loaned_at + durationDays LOAN_PERIOD_DAYS
  let loan : Loan :=
    { loan_id, book_id, member_id, loaned_at, due_date,
      returned_at := none, extension_count := ExtensionCount.new,
      status := .Active, created_by := staff_id,
      created_at := loaned_at, updated_at := loaned_at }
  let event : BookLoaned :=
    { loan_id, book_id, member_id, loaned_at, due_date, loaned_by := staff_id }
  .ok (loan, event)

/-- `extend_loan` (`src/domain/loan.rs`): legacy record-based extension with
its three checks in source order. -/
def extend_loan (loan : Loan) (extended_at : Int) :
    Except ExtendLoanError (Loan × LoanExtended) :=
  if loan.status.is_returned then .error .AlreadyReturned
  else if loan.status.is_overdue then .error .CannotExtendOverdue
  else if ¬ loan.extension_count.can_extend then .error .ExtensionLimitExceeded
  else
    let old_due_date := loan.due_date
    let new_due_date := loan.due_date + durationDays LOAN_PERIOD_DAYS
    match loan.extension_count.increment with
    | .error _ => .error .ExtensionLimitExceeded
    | .ok new_extension_count =>
      let new_loan : Loan :=
        { loan with due_date := new_due_date,
                    extension_count := new_extension_count,
                    updated_at := extended_at }
      let event : LoanExtended :=
        { loan_id := loan.loan_id, old_due_date, new_due_date, extended_at,
          extension_count := new_extension_count.value }
      .ok (new_loan, event)

/-- `return_book` (`src/domain/loan.rs`): legacy record-based return. -/
def return_book (loan : Loan) (returned_at : Int) :
    Except ReturnBookError (Loan × BookReturned) :=
  if loan.status.is_returned then .error .AlreadyReturned
  else
    let was_overdue := loan.status.is_overdue || decide (returned_at > loan.due_date)
    let new_loan : Loan :=
      { loan with returned_at := some returned_at, status := .Returned,
                  updated_at := returned_at }
    let event : BookReturned :=
      { loan_id := loan.loan_id, book_id := loan.book_id,
        member_id := loan.member_id, returned_at, was_overdue }
    .ok (new_loan, event)

/-- `is_overdue` (`src/domain/loan.rs`): the legacy record-based check,
`!loan.status.is_returned() && now > loan.due_date`. -/
def is_overdue (loan : Loan) (now : Int) : Bool :=
  !loan.status.is_returned && decide (now > loan.due_date)

/-- `loan_book_v2` (`src/domain/loan.rs`): type-safe creation.  The fresh
UUID drawn by `LoanId::new()` is passed as `loan_id`. -/
def loan_book_v2 (book_id : BookId) (member_id : MemberId) (loaned_at : Int)
    (staff_id : StaffId) (loan_id : LoanId) :
    Except LoanBookError (ActiveLoan × BookLoaned) :=
  let due_date := loaned_at + durationDays LOAN_PERIOD_DAYS
  let loan : ActiveLoan :=
    { core :=
      { loan_id, book_id, member_id, loaned_at, due_date,
        extension_count := ExtensionCount.new, created_by := staff_id,
        created_at := loaned_at, updated_at := loaned_at } }
  let event : BookLoaned :=
    { loan_id, book_id, member_id, loaned_at, due_date, loaned_by := staff_id }
  .ok (loan, event)

/-- `extend_loan_v2` (`src/domain/loan.rs`): type-safe extension. -/
def extend_loan_v2 (loan : ActiveLoan) (extended_at : Int) :
    Except ExtendLoanError (ActiveLoan × LoanExtended) :=
  if ¬ loan.core.extension_count.can_extend then .error .ExtensionLimitExceeded
  else
    let loan_id := loan.core.loan_id
    let old_due_date := loan.core.due_date
    let new_due_date := old_due_date + durationDays LOAN_PERIOD_DAYS
    match loan.core.extension_count.increment with
    | .error _ => .error .ExtensionLimitExceeded
    | .ok new_extension_count =>
      let new_loan : ActiveLoan :=
        { core := { loan.core with due_date := new_due_date,
                                   extension_count := new_extension_count,
                                   updated_at := extended_at } }
      let event : LoanExtended :=
        { loan_id, old_due_date, new_due_date, extended_at,
          extension_count := new_extension_count.value }
      .ok (new_loan, event)

/-- `return_book_v2` (`src/domain/loan.rs`): type-safe return, accepting
either non-terminal state. -/
def return_book_v2 (loan : LoanV2) (returned_at : Int) :
    Except ReturnBookError (ReturnedLoan × BookReturned) :=
  match loan with
  | .active a =>
    let was_overdue := decide (returned_at > a.core.due_date)
    let returned_loan : ReturnedLoan :=
      { core := { a.core with updated_at := returned_at }, returned_at }
    let event : BookReturned :=
      { loan_id := a.core.loan_id, book_id := a.core.book_id,
        member_id := a.core.member_id, returned_at, was_overdue }
    .ok (returned_loan, event)
  | .overdue o =>
    let returned_loan : ReturnedLoan :=
      { core := { o.core with updated_at := returned_at }, returned_at }
    let event : BookReturned :=
      { loan_id := o.core.loan_id, book_id := o.core.book_id,
        member_id := o.core.member_id, returned_at, was_overdue := true }
    .ok (returned_loan, event)
  | .returned _ => .error .AlreadyReturned

/-- `is_overdue_v2` (`src/domain/loan.rs`): pattern-matching overdue check
on the sum type.  The application layer of this snapshot calls it
`is_overdue` on `domain::loan::Loan`. -/
def is_overdue_v2 (loan : LoanV2) (now : Int) : Bool :=
  match loan with
  | .overdue _ => true
  | .active a => decide (now > a.core.due_date)
  | .returned _ => false

/-- The distinct panic sites of `apply_event` (`src/domain/loan.rs`),
totalized: an invalid `(state, event)` pairing, a `loan_id` mismatch on an
in-table pair (`assert_eq!`), or a persisted `extension_count` above 1
(`ExtensionCount::try_from(..).expect`).  All are fatal integrity faults,
distinct from the business-error enums. -/
inductive IntegrityFault where
  | invalidTransition
  | loanIdMismatch
  | invalidExtensionCount
deriving DecidableEq, Repr

/-- `apply_event` (`src/domain/loan.rs`): the fold step of event sourcing.
The Rust function panics on a bad pairing; the embedding returns
`Except IntegrityFault`. -/
def apply_event (loan : Option LoanV2) (event : DomainEvent) :
    Except IntegrityFault LoanV2 :=
  match loan, event with
  | none, .bookLoaned e =>
    .ok (.active { core :=
      { loan_id := e.loan_id, book_id := e.book_id, member_id := e.member_id,
        loaned_at := e.loaned_at, due_date := e.due_date,
        extension_count := ExtensionCount.new, created_by := e.loaned_by,
        created_at := e.loaned_at, updated_at := e.loaned_at } })
  | some _, .bookLoaned _ => .error .invalidTransition
  | some (.active a), .loanExtended e =>
    if a.core.loan_id = e.loan_id then
      match ExtensionCount.tryFrom e.extension_count with
      | .error _ => .error .invalidExtensionCount
      | .ok extension_count =>
        .ok (.active { core :=
          { a.core with due_date := e.new_due_date, extension_count,
                        updated_at := e.extended_at } })
    else .error .loanIdMismatch
  | some (.active a), .bookReturned e =>
    if a.core.loan_id = e.loan_id then
      .ok (.returned { core := { a.core with updated_at := e.returned_at },
                       returned_at := e.returned_at })
    else .error .loanIdMismatch
  | some (.overdue o), .bookReturned e =>
    if o.core.loan_id = e.loan_id then
      .ok (.returned { core := { o.core with updated_at := e.returned_at },
                       returned_at := e.returned_at })
    else .error .loanIdMismatch
  | some (.active a), .loanBecameOverdue e =>
    if a.core.loan_id = e.loan_id then
      .ok (.overdue { core := { a.core with updated_at := e.detected_at } })
    else .error .loanIdMismatch
  | _, _ => .error .invalidTransition

/-- `replay_events` (`src/domain/loan.rs`): left fold of `apply_event`
starting from no prior state; a panic during the Rust fold surfaces as an
`IntegrityFault` here. -/
def replay_events (events : List DomainEvent) :
    Except IntegrityFault (Option LoanV2) :=
  events.foldlM (fun loan event => (apply_event loan event).map some) none

/-!
## Claim theorems: the loan state machine
-/

/-- C1 (counterexample): the claim states that `isOverdue` is true whenever
the loan is in the Overdue state, for both implementations.  The legacy
record-based `is_overdue` computes `!returned && now > due_date`, so an
Overdue-status loan whose due date has not yet passed (here `due = 100`,
`now = 100`) yields `false` where the claim demands `true`. -/
theorem C1_counterexample :
    (let loan : Loan :=
      { loan_id := ⟨0⟩, book_id := ⟨0⟩, member_id := ⟨0⟩,
        loaned_at := 0, due_date := 100, returned_at := none,
        extension_count := ExtensionCount.new, status := .Overdue,
        created_by := ⟨0⟩, created_at := 0, updated_at := 0 }
     loan.status = .Overdue ∧ is_overdue loan 100 = false) := by
  constructor
  · rfl
  · rfl

/-- C1 (amended): `is_overdue_v2` returns true iff the loan is Overdue, or
Active with `now > due_date`, and false when Returned — exactly the claimed
biconditional.  The legacy `is_overdue` instead returns true iff the loan
is not Returned and `now > due_date`: for an Overdue loan it additionally
requires `now > due_date`, and it is false whenever the loan is Returned. -/
theorem C1_theorem :
    (∀ (loan : LoanV2) (now : Int), is_overdue_v2 loan now = true ↔
      ((∃ o, loan = .overdue o) ∨ (∃ a, loan = .active a ∧ now > a.core.due_date))) ∧
    (∀ (loan : Loan) (now : Int), is_overdue loan now = true ↔
      (loan.status ≠ .Returned ∧ now > loan.due_date)) := by
  constructor
  · intro loan now
    cases loan with
    | active a => simp [is_overdue_v2]
    | overdue o => simp [is_overdue_v2]
    | returned r => simp [is_overdue_v2]
  · intro loan now
    cases h : loan.status <;>
      simp [is_overdue, LoanStatus.is_returned, h]

/-- C3: on an Active loan, `extend_loan_v2` succeeds iff the extension
count is 0; on success the due date moves forward by 14 days and the count
becomes 1; with count 1 it fails with `ExtensionLimitExceeded` (the pure
function returns only the error, leaving the input untouched); and the
count is always in `{0, 1}`. -/
theorem C3_theorem : ∀ (loan : ActiveLoan) (now : Int),
    ((∃ r, extend_loan_v2 loan now = .ok r) ↔ loan.core.extension_count.value = 0) ∧
    (loan.core.extension_count.value = 0 →
      ∃ l' e, extend_loan_v2 loan now = .ok (l', e) ∧
        l'.core.due_date = loan.core.due_date + durationDays 14 ∧
        l'.core.extension_count.value = 1 ∧
        e.old_due_date = loan.core.due_date ∧
        e.new_due_date = l'.core.due_date) ∧
    (loan.core.extension_count.value = 1 →
      extend_loan_v2 loan now = .error .ExtensionLimitExceeded) ∧
    (loan.core.extension_count.value = 0 ∨ loan.core.extension_count.value = 1) := by
  rintro ⟨⟨lid, bid, mid, la, dd, ⟨v, hv⟩, cb, ca, ua⟩⟩ now
  refine ⟨?_, ?_, ?_, ?_⟩
  case _ =>
    constructor
    · rintro ⟨r, hr⟩
      by_cases h0 : v = 0
      · exact h0
      · exfalso
        have hv1 : v = 1 := by omega
        subst hv1
        simp [extend_loan_v2, ExtensionCount.can_extend] at hr
    · intro h0
      have h0' : v = 0 := h0
      subst h0'
      exact ⟨_, rfl⟩
  case _ =>
    intro h0
    have h0' : v = 0 := h0
    subst h0'
    exact ⟨_, _, rfl, rfl, rfl, rfl, rfl⟩
  case _ =>
    intro h1
    have h1' : v = 1 := h1
    subst h1'
    rfl
  case _ =>
    show v = 0 ∨ v = 1
    omega

/-- C3 witness: extending a fresh Active loan (count 0) at time 5 succeeds
with the due date pushed 14 days. -/
theorem C3_witness :
    ∃ l' e, extend_loan_v2
      { core := { loan_id := ⟨1⟩, book_id := ⟨2⟩, member_id := ⟨3⟩,
                  loaned_at := 0, due_date := durationDays 14,
                  extension_count := ExtensionCount.new, created_by := ⟨4⟩,
                  created_at := 0, updated_at := 0 } } 5 = .ok (l', e) ∧
      l'.core.due_date = durationDays 14 + durationDays 14 ∧
      l'.core.extension_count.value = 1 ∧
      e.old_due_date = durationDays 14 ∧
      e.new_due_date = l'.core.due_date := by
  exact (C3_theorem
    { core := { loan_id := ⟨1⟩, book_id := ⟨2⟩, member_id := ⟨3⟩,
                loaned_at := 0, due_date := durationDays 14,
                extension_count := ExtensionCount.new, created_by := ⟨4⟩,
                created_at := 0, updated_at := 0 } } 5).2.1 rfl

/-- C7: `return_book_v2` succeeds on Active and Overdue loans, producing a
Returned loan stamped with `now` and a `was_overdue` flag equal to
(loan was Overdue) OR (`now > due_date`); it fails, and fails only, on an
already-Returned loan, with `AlreadyReturned`.  The legacy `return_book`
behaves the same on the record representation. -/
theorem C7_theorem : ∀ now : Int,
    (∀ a : ActiveLoan, ∃ r e, return_book_v2 (.active a) now = .ok (r, e) ∧
        r.returned_at = now ∧ e.was_overdue = decide (now > a.core.due_date)) ∧
    (∀ o : OverdueLoan, ∃ r e, return_book_v2 (.overdue o) now = .ok (r, e) ∧
        r.returned_at = now ∧ e.was_overdue = true) ∧
    (∀ r : ReturnedLoan,
        return_book_v2 (.returned r) now = .error .AlreadyReturned) ∧
    (∀ loan : Loan, loan.status ≠ .Returned →
        ∃ l' e, return_book loan now = .ok (l', e) ∧
          l'.returned_at = some now ∧ l'.status = .Returned ∧
          e.was_overdue = (loan.status.is_overdue || decide (now > loan.due_date))) ∧
    (∀ loan : Loan, loan.status = .Returned →
        return_book loan now = .error .AlreadyReturned) := by
  intro now
  refine ⟨?_, ?_, ?_, ?_, ?_⟩
  · intro a; exact ⟨_, _, rfl, rfl, rfl⟩
  · intro o; exact ⟨_, _, rfl, rfl, rfl⟩
  · intro r; rfl
  · rintro ⟨lid, bid, mid, la, dd, ra, ec, st, cb, ca, ua⟩ hne
    have hret : st.is_returned = false := by
      cases st <;> simp_all [LoanStatus.is_returned]
    refine ⟨⟨lid, bid, mid, la, dd, some now, ec, .Returned, cb, ca, now⟩,
            ⟨lid, bid, mid, now, st.is_overdue || decide (now > dd)⟩,
            ?_, rfl, rfl, rfl⟩
    simp [return_book, hret]
  · intro loan hret
    simp [return_book, hret, LoanStatus.is_returned]

/-- C7 witness (scenario C): returning an Active loan six days past its due
date succeeds with `was_overdue = true`; the legacy record version agrees. -/
theorem C7_witness :
    (∃ r e, return_book_v2 (.active
      { core := { loan_id := ⟨1⟩, book_id := ⟨2⟩, member_id := ⟨3⟩,
                  loaned_at := 0, due_date := durationDays 14,
                  extension_count := ExtensionCount.new, created_by := ⟨4⟩,
                  created_at := 0, updated_at := 0 } }) (durationDays 20)
        = .ok (r, e) ∧
      r.returned_at = durationDays 20 ∧
      e.was_overdue = decide (durationDays 20 > durationDays 14)) ∧
    (∃ l' e, return_book
      { loan_id := ⟨1⟩, book_id := ⟨2⟩, member_id := ⟨3⟩,
        loaned_at := 0, due_date := durationDays 14, returned_at := none,
        extension_count := ExtensionCount.new, status := .Active,
        created_by := ⟨4⟩, created_at := 0, updated_at := 0 } (durationDays 20)
        = .ok (l', e) ∧
      l'.returned_at = some (durationDays 20) ∧ l'.status = .Returned ∧
      e.was_overdue = (LoanStatus.Active.is_overdue
        || decide (durationDays 20 > durationDays 14))) := by
  refine ⟨(C7_theorem (durationDays 20)).1 _, ?_⟩
  exact (C7_theorem (durationDays 20)).2.2.2.1 _ (by decide)

/-- C8: `loan_book_v2` always succeeds, producing an Active loan with
`due_date = now + 14 days` and extension count 0, and a `BookLoaned` event
carrying the same loan id, book id, member id, `loaned_at = now` and the
same due date. -/
theorem C8_theorem :
    ∀ (b : BookId) (m : MemberId) (now : Int) (s : StaffId) (lid : LoanId),
    ∃ l e, loan_book_v2 b m now s lid = .ok (l, e) ∧
      l.core.due_date = now + durationDays 14 ∧
      l.core.extension_count.value = 0 ∧
      l.core.loan_id = lid ∧
      e.loan_id = l.core.loan_id ∧ e.book_id = b ∧ e.member_id = m ∧
      e.loaned_at = now ∧ e.due_date = l.core.due_date ∧ e.loaned_by = s := by
  intro b m now s lid
  exact ⟨_, _, rfl, rfl, rfl, rfl, rfl, rfl, rfl, rfl, rfl, rfl⟩

/-- C10: the legacy `extend_loan` checks its error cases in source order:
Returned loans always get `AlreadyReturned` and Overdue loans always get
`CannotExtendOverdue`, both regardless of the extension count, while
`ExtensionLimitExceeded` arises only for an Active loan with count 1. -/
theorem C10_theorem : ∀ (loan : Loan) (now : Int),
    (loan.status = .Returned → extend_loan loan now = .error .AlreadyReturned) ∧
    (loan.status = .Overdue → extend_loan loan now = .error .CannotExtendOverdue) ∧
    (extend_loan loan now = .error .ExtensionLimitExceeded →
      loan.status = .Active ∧ loan.extension_count.value = 1) := by
  rintro ⟨lid, bid, mid, la, dd, ra, ⟨v, hv⟩, st, cb, ca, ua⟩ now
  refine ⟨?_, ?_, ?_⟩
  · rintro rfl; rfl
  · rintro rfl; rfl
  · intro herr
    cases st
    case Returned => exact absurd herr (by simp [extend_loan, LoanStatus.is_returned])
    case Overdue =>
      exact absurd herr
        (by simp [extend_loan, LoanStatus.is_returned, LoanStatus.is_overdue])
    case Active =>
      refine ⟨rfl, ?_⟩
      show v = 1
      by_cases h0 : v = 0
      · subst h0
        simp [extend_loan, LoanStatus.is_returned, LoanStatus.is_overdue,
          ExtensionCount.can_extend, ExtensionCount.increment] at herr
      · omega

/-- C10 witness: an Overdue loan with extension count 1 still gets
`CannotExtendOverdue`, and a Returned loan gets `AlreadyReturned`. -/
theorem C10_witness :
    extend_loan
      { loan_id := ⟨1⟩, book_id := ⟨2⟩, member_id := ⟨3⟩,
        loaned_at := 0, due_date := durationDays 14, returned_at := none,
        extension_count := ⟨1, by omega⟩, status := .Overdue,
        created_by := ⟨4⟩, created_at := 0, updated_at := 0 } 7
      = .error .CannotExtendOverdue ∧
    extend_loan
      { loan_id := ⟨1⟩, book_id := ⟨2⟩, member_id := ⟨3⟩,
        loaned_at := 0, due_date := durationDays 14, returned_at := some 7,
        extension_count := ExtensionCount.new, status := .Returned,
        created_by := ⟨4⟩, created_at := 0, updated_at := 0 } 9
      = .error .AlreadyReturned := by
  constructor
  · exact (C10_theorem _ 7).2.1 rfl
  · exact (C10_theorem _ 9).1 rfl

/-- C2: `apply_event` yields a successor state exactly on the transition
table — `(None, Loaned) → Active`, `(Active, Extended) → Active`,
`(Active, BecameOverdue) → Overdue`, `(Active, Returned) → Returned`,
`(Overdue, Returned) → Returned` (the in-table cases shown for an event
referencing the current loan, with a well-formed persisted extension
count; C9 covers the id-mismatch refinement) — and every other pair,
including `Loaned` on any non-empty prior state, `Extended`/`BecameOverdue`
on Overdue or Returned, any event on Returned, and any non-`Loaned` event
on the empty prior state, is rejected as a fatal `IntegrityFault` (the
totalized panic), not as one of the business-error enums. -/
theorem C2_theorem :
    (∀ e, ∃ a, apply_event none (.bookLoaned e) = .ok (.active a)) ∧
    (∀ a e, a.core.loan_id = e.loan_id → e.extension_count ≤ 1 →
      ∃ a', apply_event (some (.active a)) (.loanExtended e) = .ok (.active a')) ∧
    (∀ a e, a.core.loan_id = e.loan_id →
      ∃ o, apply_event (some (.active a)) (.loanBecameOverdue e) = .ok (.overdue o)) ∧
    (∀ a e, a.core.loan_id = e.loan_id →
      ∃ r, apply_event (some (.active a)) (.bookReturned e) = .ok (.returned r)) ∧
    (∀ o e, o.core.loan_id = e.loan_id →
      ∃ r, apply_event (some (.overdue o)) (.bookReturned e) = .ok (.returned r)) ∧
    (∀ l e, apply_event (some l) (.bookLoaned e) = .error .invalidTransition) ∧
    (∀ o e, apply_event (some (.overdue o)) (.loanExtended e)
      = .error .invalidTransition) ∧
    (∀ r e, apply_event (some (.returned r)) (.loanExtended e)
      = .error .invalidTransition) ∧
    (∀ o e, apply_event (some (.overdue o)) (.loanBecameOverdue e)
      = .error .invalidTransition) ∧
    (∀ r e, apply_event (some (.returned r)) (.loanBecameOverdue e)
      = .error .invalidTransition) ∧
    (∀ r e, apply_event (some (.returned r)) (.bookReturned e)
      = .error .invalidTransition) ∧
    (∀ e, apply_event none (.loanExtended e) = .error .invalidTransition) ∧
    (∀ e, apply_event none (.loanBecameOverdue e) = .error .invalidTransition) ∧
    (∀ e, apply_event none (.bookReturned e) = .error .invalidTransition) := by
  refine ⟨?_, ?_, ?_, ?_, ?_, ?_, ?_, ?_, ?_, ?_, ?_, ?_, ?_, ?_⟩
  · intro e; exact ⟨_, rfl⟩
  · intro a e hid hcnt
    simp only [apply_event, if_pos hid]
    have : ExtensionCount.tryFrom e.extension_count
        = .ok ⟨e.extension_count, hcnt⟩ := by
      simp [ExtensionCount.tryFrom, Nat.not_lt.mpr hcnt]
    rw [this]
    exact ⟨_, rfl⟩
  · intro a e hid
    simp only [apply_event, if_pos hid]
    exact ⟨_, rfl⟩
  · intro a e hid
    simp only [apply_event, if_pos hid]
    exact ⟨_, rfl⟩
  · intro o e hid
    simp only [apply_event, if_pos hid]
    exact ⟨_, rfl⟩
  · intro l e; cases l <;> rfl
  · intro o e; rfl
  · intro r e; rfl
  · intro o e; rfl
  · intro r e; rfl
  · intro r e; rfl
  · intro e; rfl
  · intro e; rfl
  · intro e; rfl

/-- C2 witness: concrete instances of the table — a `Loaned` on the empty
state succeeds, an `Extended` with matching id and count 1 succeeds on an
Active loan, and `Extended` on a Returned loan is an integrity fault. -/
theorem C2_witness :
    (∃ a, apply_event none (.bookLoaned
      { loan_id := ⟨1⟩, book_id := ⟨2⟩, member_id := ⟨3⟩, loaned_at := 0,
        due_date := durationDays 14, loaned_by := ⟨4⟩ }) = .ok (.active a)) ∧
    (∃ a', apply_event
      (some (.active { core := { loan_id := ⟨1⟩, book_id := ⟨2⟩,
                                 member_id := ⟨3⟩, loaned_at := 0,
                                 due_date := durationDays 14,
                                 extension_count := ExtensionCount.new,
                                 created_by := ⟨4⟩,
                                 created_at := 0, updated_at := 0 } }))
      (.loanExtended { loan_id := ⟨1⟩, old_due_date := durationDays 14,
                       new_due_date := durationDays 28, extended_at := 5,
                       extension_count := 1 }) = .ok (.active a')) ∧
    apply_event
      (some (.returned { core := { loan_id := ⟨1⟩, book_id := ⟨2⟩,
                                   member_id := ⟨3⟩, loaned_at := 0,
                                   due_date := durationDays 14,
                                   extension_count := ExtensionCount.new,
                                   created_by := ⟨4⟩,
                                   created_at := 0, updated_at := 7 },
                         returned_at := 7 }))
      (.loanExtended { loan_id := ⟨1⟩, old_due_date := durationDays 14,
                       new_due_date := durationDays 28, extended_at := 9,
                       extension_count := 1 }) = .error .invalidTransition := by
  refine ⟨C2_theorem.1 _, ?_, ?_⟩
  · exact C2_theorem.2.1 _ _ rfl (by decide)
  · exact C2_theorem.2.2.2.2.2.2.2.1 _ _

/-- C9: beyond the shape table, `apply_event` treats a loan-id mismatch on
any in-table pair whose event is Extended, Returned or BecameOverdue as a
fatal integrity fault (the `assert_eq!` panic); only `(None, Loaned)` is
accepted with no id check at all. -/
theorem C9_theorem :
    (∀ a e, a.core.loan_id ≠ e.loan_id →
      apply_event (some (.active a)) (.loanExtended e) = .error .loanIdMismatch) ∧
    (∀ a e, a.core.loan_id ≠ e.loan_id →
      apply_event (some (.active a)) (.bookReturned e) = .error .loanIdMismatch) ∧
    (∀ o e, o.core.loan_id ≠ e.loan_id →
      apply_event (some (.overdue o)) (.bookReturned e) = .error .loanIdMismatch) ∧
    (∀ a e, a.core.loan_id ≠ e.loan_id →
      apply_event (some (.active a)) (.loanBecameOverdue e)
        = .error .loanIdMismatch) ∧
    (∀ e, (apply_event none (.bookLoaned e)).isOk = true) := by
  refine ⟨?_, ?_, ?_, ?_, ?_⟩
  · intro a e hid; simp only [apply_event, if_neg hid]
  · intro a e hid; simp only [apply_event, if_neg hid]
  · intro o e hid; simp only [apply_event, if_neg hid]
  · intro a e hid; simp only [apply_event, if_neg hid]
  · intro e; rfl

/-- C9 witness: an `Extended` event for loan 2 applied to Active loan 1 is
a loan-id-mismatch integrity fault. -/
theorem C9_witness :
    apply_event
      (some (.active { core := { loan_id := ⟨1⟩, book_id := ⟨2⟩,
                                 member_id := ⟨3⟩, loaned_at := 0,
                                 due_date := durationDays 14,
                                 extension_count := ExtensionCount.new,
                                 created_by := ⟨4⟩,
                                 created_at := 0, updated_at := 0 } }))
      (.loanExtended { loan_id := ⟨2⟩, old_due_date := durationDays 14,
                       new_due_date := durationDays 28, extended_at := 5,
                       extension_count := 1 }) = .error .loanIdMismatch := by
  exact C9_theorem.1 _ _ (by decide)

/-!
## Event store (`src/adapters/postgres/event_store.rs`)

The `events` table is embedded as a list of rows.  Each `append` call runs
inside one transaction: read `COALESCE(MAX(aggregate_version), 0)` for the
aggregate, assign `current+1 .. current+N` to the batch in order, insert
all rows.  The theorem treats each transaction as atomic — the spec's
premise that the version read and the insert share one transaction
boundary, serializing concurrent appenders of the same aggregate — and
proves the version bookkeeping for the two serialized appends.
-/

/-- `EventStore::event_type` (`src/adapters/postgres/event_store.rs`). -/
def eventTypeOf : DomainEvent → String
  | .bookLoaned _ => "BookLoaned"
  | .loanExtended _ => "LoanExtended"
  | .bookReturned _ => "BookReturned"
  | .loanBecameOverdue _ => "LoanBecameOverdue"

/-- `EventStore::occurred_at` (`src/adapters/postgres/event_store.rs`). -/
def occurredAtOf : DomainEvent → Int
  | .bookLoaned e => e.loaned_at
  | .loanExtended e => e.extended_at
  | .bookReturned e => e.returned_at
  | .loanBecameOverdue e => e.detected_at

/-- One row of the `events` table (§6 of the spec; the insert in
`EventStore::append`).  The global `sequence_number` surrogate is the row's
position in the list. -/
structure EventRow where
  aggregate_id : LoanId
  aggregate_version : Int
  aggregate_type : String
  event_type : String
  event_data : DomainEvent
  occurred_at : Int
deriving DecidableEq, Repr

/-- The `aggregate_version` column restricted to one aggregate, in row
order (`WHERE aggregate_id = $1`). -/
def aggVersions (db : List EventRow) (aggId : LoanId) : List Int :=
  (db.filter (fun r => decide (r.aggregate_id = aggId))).map
    (·.aggregate_version)

/-- `COALESCE(MAX(..), 0)`: 0 on the empty column, else the maximum. -/
def maxVer : List Int → Int
  | [] => 0
  | v :: vs => vs.foldl max v

/-- The `current_version` read at the start of `EventStore::append`. -/
def currentVersion (db : List EventRow) (aggId : LoanId) : Int :=
  maxVer (aggVersions db aggId)

/-- The row built for the `i`-th event of a batch in `EventStore::append`
(`versions.push(current_version + (i as i32) + 1)` and the UNNEST insert). -/
def batchRow (aggId : LoanId) (current_version : Int) (ie : Nat × DomainEvent) :
    EventRow :=
  { aggregate_id := aggId,
    aggregate_version := current_version + (ie.1 : Int) + 1,
    aggregate_type := "Loan",
    event_type := eventTypeOf ie.2,
    event_data := ie.2,
    occurred_at := occurredAtOf ie.2 }

/-- `EventStore::append` (`src/adapters/postgres/event_store.rs`): no-op on
an empty batch, otherwise one atomic read-version-then-insert transaction. -/
def EventStore.append (db : List EventRow) (aggregate_id : LoanId)
    (events : List DomainEvent) : List EventRow :=
  if events.isEmpty then db
  else
    let current_version := currentVersion db aggregate_id
    db ++ events.enum.map (batchRow aggregate_id current_version)

lemma append_nonempty (db : List EventRow) (aggId : LoanId)
    (es : List DomainEvent) (h : es ≠ []) :
    EventStore.append db aggId es
      = db ++ es.enum.map (batchRow aggId (currentVersion db aggId)) := by
  have h' : es.isEmpty = false := by cases es <;> simp_all
  simp [EventStore.append, h']

lemma batch_versions (aggId : LoanId) (V : Int) (es : List DomainEvent) :
    (es.enum.map (batchRow aggId V)).map (·.aggregate_version)
      = (List.range es.length).map (fun i : Nat => V + (i : Int) + 1) := by
  rw [← List.enum_map_fst es, List.map_map, List.map_map]
  rfl

lemma batch_data (aggId : LoanId) (V : Int) (es : List DomainEvent) :
    (es.enum.map (batchRow aggId V)).map (·.event_data) = es := by
  conv_rhs => rw [← List.enum_map_snd es]
  rw [List.map_map]
  rfl

lemma batch_agg (aggId : LoanId) (V : Int) (es : List DomainEvent) :
    ∀ r ∈ es.enum.map (batchRow aggId V), r.aggregate_id = aggId := by
  intro r hr
  obtain ⟨ie, _, rfl⟩ := List.mem_map.mp hr
  rfl

lemma aggVersions_append_batch (db : List EventRow) (aggId : LoanId)
    (V : Int) (es : List DomainEvent) :
    aggVersions (db ++ es.enum.map (batchRow aggId V)) aggId
      = aggVersions db aggId
          ++ (List.range es.length).map (fun i : Nat => V + (i : Int) + 1) := by
  unfold aggVersions
  rw [List.filter_append, List.map_append, ← batch_versions aggId V es]
  congr 2
  apply List.filter_eq_self.mpr
  intro r hr
  simp [batch_agg aggId V es r hr]

lemma foldl_max_range (N : Nat) (hN : N ≠ 0) (a b : Int) :
    List.foldl max a ((List.range N).map (fun i : Nat => b + (i : Int) + 1))
      = max a (b + N) := by
  induction N with
  | zero => omega
  | succ n ih =>
    rw [List.range_succ, List.map_append, List.foldl_append]
    cases Nat.eq_zero_or_pos n with
    | inl h0 =>
      subst h0
      simp only [List.range_zero, List.map_nil, List.foldl_nil, List.map_cons,
        List.foldl_cons]
      push_cast
      omega
    | inr hpos =>
      rw [ih (by omega)]
      simp only [List.map_cons, List.map_nil, List.foldl_cons, List.foldl_nil]
      push_cast
      omega

lemma maxVer_map_range (N : Nat) (hN : N ≠ 0) (b : Int) :
    maxVer ((List.range N).map (fun i : Nat => b + (i : Int) + 1)) = b + N := by
  cases N with
  | zero => omega
  | succ n =>
    rw [List.range_succ_eq_map, List.map_cons, List.map_map]
    have hmap : (List.map ((fun i : Nat => b + (i : Int) + 1) ∘ Nat.succ)
          (List.range n))
        = (List.range n).map (fun i : Nat => (b + 1) + (i : Int) + 1) := by
      apply List.map_congr_left
      intro i _
      show b + ((i + 1 : Nat) : Int) + 1 = (b + 1) + (i : Int) + 1
      push_cast
      ring
    rw [hmap]
    show List.foldl max (b + ((0 : Nat) : Int) + 1) _ = _
    cases Nat.eq_zero_or_pos n with
    | inl h0 =>
      subst h0
      simp only [List.range_zero, List.map_nil, List.foldl_nil]
      push_cast
      omega
    | inr hpos =>
      rw [foldl_max_range n (by omega)]
      push_cast
      omega

lemma maxVer_append_range (l : List Int) (N : Nat) (hN : N ≠ 0) :
    maxVer (l ++ (List.range N).map (fun i : Nat => maxVer l + (i : Int) + 1))
      = maxVer l + N := by
  cases l with
  | nil =>
    rw [List.nil_append]
    exact maxVer_map_range N hN _
  | cons v vs =>
    show List.foldl max v (vs ++ _) = _
    rw [List.foldl_append, foldl_max_range N hN]
    have hfold : List.foldl max v vs = maxVer (v :: vs) := rfl
    rw [hfold]
    omega

lemma currentVersion_after_append (db : List EventRow) (aggId : LoanId)
    (es : List DomainEvent) (h : es ≠ []) :
    currentVersion (EventStore.append db aggId es) aggId
      = currentVersion db aggId + es.length := by
  rw [append_nonempty db aggId es h]
  unfold currentVersion
  rw [aggVersions_append_batch]
  exact maxVer_append_range _ es.length (by simpa using h)

/-- C4: two serialized `append` transactions for the same aggregate, with
non-empty batches of sizes N and M over a store whose current max version
for that aggregate is V, commit rows carrying exactly the gapless strictly
increasing version range `V+1 .. V+N+M`: the first batch takes
`V+1 .. V+N`, the second appender observes the committed version `V+N`
and takes `V+N+1 .. V+N+M` — no collision, no lost update.  Each
transaction is modelled as atomic, which is the spec's stated transaction
boundary for the version read and insert. -/
theorem C4_theorem : ∀ (db : List EventRow) (aggId : LoanId)
    (es1 es2 : List DomainEvent), es1 ≠ [] → es2 ≠ [] →
    ∃ rows1 rows2,
      EventStore.append db aggId es1 = db ++ rows1 ∧
      EventStore.append (db ++ rows1) aggId es2 = db ++ rows1 ++ rows2 ∧
      currentVersion (db ++ rows1) aggId
        = currentVersion db aggId + es1.length ∧
      (rows1 ++ rows2).map (·.aggregate_version)
        = (List.range (es1.length + es2.length)).map
            (fun i : Nat => currentVersion db aggId + (i : Int) + 1) ∧
      rows1.map (·.event_data) = es1 ∧
      rows2.map (·.event_data) = es2 ∧
      (∀ r ∈ rows1 ++ rows2, r.aggregate_id = aggId) := by
  intro db aggId es1 es2 h1 h2
  set V := currentVersion db aggId with hV
  refine ⟨es1.enum.map (batchRow aggId V),
          es2.enum.map (batchRow aggId (V + es1.length)), ?_, ?_, ?_, ?_, ?_, ?_, ?_⟩
  · exact append_nonempty db aggId es1 h1
  · have hcv : currentVersion (db ++ es1.enum.map (batchRow aggId V)) aggId
        = V + es1.length := by
      have := currentVersion_after_append db aggId es1 h1
      rwa [append_nonempty db aggId es1 h1] at this
    rw [append_nonempty _ aggId es2 h2, hcv, List.append_assoc]
  · have := currentVersion_after_append db aggId es1 h1
    rwa [append_nonempty db aggId es1 h1] at this
  · rw [List.map_append, batch_versions, batch_versions, List.range_add,
      List.map_append, List.map_map]
    congr 1
    apply List.map_congr_left
    intro i _
    simp only [Function.comp_apply]
    push_cast
    ring
  · exact batch_data aggId V es1
  · exact batch_data aggId (V + es1.length) es2
  · intro r hr
    rcases List.mem_append.mp hr with h | h
    · exact batch_agg _ _ _ r h
    · exact batch_agg _ _ _ r h

/-- C4 witness: starting from the empty store, appending a batch of two
events and then a batch of one for the same aggregate commits versions
exactly `1, 2, 3`. -/
theorem C4_witness :
    ∃ rows1 rows2,
      EventStore.append [] ⟨1⟩
        [.bookLoaned { loan_id := ⟨1⟩, book_id := ⟨2⟩, member_id := ⟨3⟩,
                       loaned_at := 0, due_date := durationDays 14,
                       loaned_by := ⟨4⟩ },
         .loanExtended { loan_id := ⟨1⟩, old_due_date := durationDays 14,
                         new_due_date := durationDays 28, extended_at := 5,
                         extension_count := 1 }] = [] ++ rows1 ∧
      EventStore.append ([] ++ rows1) ⟨1⟩
        [.bookReturned { loan_id := ⟨1⟩, book_id := ⟨2⟩, member_id := ⟨3⟩,
                         returned_at := 9, was_overdue := false }]
        = [] ++ rows1 ++ rows2 ∧
      currentVersion ([] ++ rows1) ⟨1⟩ = currentVersion [] ⟨1⟩ + 2 ∧
      (rows1 ++ rows2).map (·.aggregate_version)
        = (List.range 3).map (fun i : Nat => currentVersion [] ⟨1⟩ + (i : Int) + 1) := by
  obtain ⟨rows1, rows2, h1, h2, h3, h4, -, -, -⟩ :=
    C4_theorem [] ⟨1⟩
      [.bookLoaned { loan_id := ⟨1⟩, book_id := ⟨2⟩, member_id := ⟨3⟩,
                     loaned_at := 0, due_date := durationDays 14,
                     loaned_by := ⟨4⟩ },
       .loanExtended { loan_id := ⟨1⟩, old_due_date := durationDays 14,
                       new_due_date := durationDays 28, extended_at := 5,
                       extension_count := 1 }]
      [.bookReturned { loan_id := ⟨1⟩, book_id := ⟨2⟩, member_id := ⟨3⟩,
                       returned_at := 9, was_overdue := false }]
      (by simp) (by simp)
  exact ⟨rows1, rows2, h1, h2, h3, h4⟩

/-!
## Read model and projector
(`src/ports/loan_read_model.rs`, `src/adapters/postgres/loan_read_model.rs`,
`src/adapters/postgres/projector.rs`)

The `loans_view` table is a list of rows; `save` is the
`INSERT .. ON CONFLICT (loan_id) DO UPDATE` upsert.  Note the SQL `DO
UPDATE SET` lists every column except `created_at`, so an existing row
keeps its stored `created_at`.
-/

/-- `LoanView` (`src/ports/loan_read_model.rs`). -/
structure LoanView where
  loan_id : LoanId
  book_id : BookId
  member_id : MemberId
  loaned_at : Int
  due_date : Int
  returned_at : Option Int
  extension_count : Nat
  status : LoanStatus
  created_at : Int
  updated_at : Int
deriving DecidableEq, Repr

/-- `LoanReadModel::save` (`src/adapters/postgres/loan_read_model.rs`):
upsert keyed on the `loan_id` primary key.  On conflict the `DO UPDATE
SET` overwrites every column except `created_at`, which keeps the stored
row's value. -/
def LoanReadModel.save (store : List LoanView) (v : LoanView) :
    List LoanView :=
  if store.any (fun r => decide (r.loan_id = v.loan_id)) then
    store.map (fun r =>
      if r.loan_id = v.loan_id then { v with created_at := r.created_at }
      else r)
  else store ++ [v]

/-- The shared `LoanCore` of a V2 state (the fields every projector arm
copies into the view). -/
def loanCoreOf : LoanV2 → LoanCore
  | .active a => a.core
  | .overdue o => o.core
  | .returned r => r.core

/-- The status tag a V2 state projects to. -/
def statusOf : LoanV2 → LoanStatus
  | .active _ => .Active
  | .overdue _ => .Overdue
  | .returned _ => .Returned

/-- `build_loan_view_from_aggregate` (`src/adapters/postgres/projector.rs`):
maps the replayed aggregate to a flat view row; `returned_at` is populated
only by the `Returned` arm. -/
def build_loan_view_from_aggregate (loan : LoanV2) : LoanView :=
  match loan with
  | .active a =>
    { loan_id := a.core.loan_id, book_id := a.core.book_id,
      member_id := a.core.member_id, loaned_at := a.core.loaned_at,
      due_date := a.core.due_date, returned_at := none,
      extension_count := a.core.extension_count.value, status := .Active,
      created_at := a.core.created_at, updated_at := a.core.updated_at }
  | .overdue o =>
    { loan_id := o.core.loan_id, book_id := o.core.book_id,
      member_id := o.core.member_id, loaned_at := o.core.loaned_at,
      due_date := o.core.due_date, returned_at := none,
      extension_count := o.core.extension_count.value, status := .Overdue,
      created_at := o.core.created_at, updated_at := o.core.updated_at }
  | .returned r =>
    { loan_id := r.core.loan_id, book_id := r.core.book_id,
      member_id := r.core.member_id, loaned_at := r.core.loaned_at,
      due_date := r.core.due_date, returned_at := some r.returned_at,
      extension_count := r.core.extension_count.value, status := .Returned,
      created_at := r.core.created_at, updated_at := r.core.updated_at }

/-- The failure modes of `project_loan_events`: a replay panic
(`IntegrityFault`) or the `ok_or("Failed to reconstruct loan from events")`
error on an empty replay result. -/
inductive ProjectError where
  | integrity (f : IntegrityFault)
  | reconstructFailed
deriving DecidableEq, Repr

/-- `project_loan_events` (`src/adapters/postgres/projector.rs`): no-op on
an empty history, otherwise replay the full history and upsert the view
built from the final state. -/
def project_loan_events (store : List LoanView) (events : List DomainEvent) :
    Except ProjectError (List LoanView) :=
  if events.isEmpty then .ok store
  else
    match replay_events events with
    | .error f => .error (.integrity f)
    | .ok none => .error .reconstructFailed
    | .ok (some loan) =>
      .ok (LoanReadModel.save store (build_loan_view_from_aggregate loan))

lemma save_insert (store : List LoanView) (v : LoanView)
    (h : ∀ r ∈ store, r.loan_id ≠ v.loan_id) :
    LoanReadModel.save store v = store ++ [v] := by
  have hany : store.any (fun r => decide (r.loan_id = v.loan_id)) = false := by
    rw [List.any_eq_false]
    intro r hr
    simp [h r hr]
  simp [LoanReadModel.save, hany]

lemma save_overwrite (store : List LoanView) (v : LoanView) (r₀ : LoanView)
    (h : store.find? (fun r => decide (r.loan_id = v.loan_id)) = some r₀) :
    (LoanReadModel.save store v).find? (fun r => decide (r.loan_id = v.loan_id))
      = some { v with created_at := r₀.created_at } := by
  have hmem : r₀ ∈ store := List.mem_of_find?_eq_some h
  have hp := List.find?_some h
  have hany : store.any (fun r => decide (r.loan_id = v.loan_id)) = true := by
    rw [List.any_eq_true]
    exact ⟨r₀, hmem, hp⟩
  rw [LoanReadModel.save, if_pos (by simpa using hany)]
  clear hp hany hmem
  induction store with
  | nil => simp at h
  | cons r rs ih =>
    by_cases hp : r.loan_id = v.loan_id
    · rw [List.find?_cons_of_pos _ (by simpa using hp)] at h
      obtain rfl : r = r₀ := by simpa using h
      rw [List.map_cons, if_pos hp,
        List.find?_cons_of_pos _ (by simp)]
    · rw [List.find?_cons_of_neg _ (by simpa using hp)] at h
      rw [List.map_cons, if_neg hp,
        List.find?_cons_of_neg _ (by simpa using hp)]
      exact ih h

lemma save_countP_one (store : List LoanView) (v : LoanView)
    (hnd : (store.map (·.loan_id)).Nodup) :
    (LoanReadModel.save store v).countP
      (fun r => decide (r.loan_id = v.loan_id)) = 1 := by
  by_cases hex : ∃ r ∈ store, r.loan_id = v.loan_id
  · obtain ⟨re, hre, hkey⟩ := hex
    have hany : store.any (fun r => decide (r.loan_id = v.loan_id)) = true := by
      rw [List.any_eq_true]
      exact ⟨re, hre, by simpa using hkey⟩
    rw [LoanReadModel.save, if_pos (by simpa using hany)]
    clear hany
    induction store with
    | nil => simp at hre
    | cons r rs ih =>
      rw [List.map_cons, List.nodup_cons] at hnd
      by_cases hp : r.loan_id = v.loan_id
      · rw [List.map_cons, if_pos hp, List.countP_cons_of_pos _ _ (by simp)]
        have hzero : rs.countP (fun r => decide (r.loan_id = v.loan_id)) = 0 := by
          rw [List.countP_eq_zero]
          intro x hx
          have : x.loan_id ≠ r.loan_id := by
            intro hc
            exact hnd.1 (hc ▸ List.mem_map_of_mem (·.loan_id) hx)
          simp [hp ▸ this]
        have hmapzero :
            (rs.map (fun r =>
              if r.loan_id = v.loan_id then { v with created_at := r.created_at }
              else r)).countP (fun r => decide (r.loan_id = v.loan_id)) = 0 := by
          rw [List.countP_eq_zero] at hzero ⊢
          intro x hx
          obtain ⟨y, hy, rfl⟩ := List.mem_map.mp hx
          have hyk : ¬ y.loan_id = v.loan_id := by
            have := hzero y hy
            simpa using this
          rw [if_neg hyk]
          simpa using hyk
        rw [hmapzero]
      · rcases List.mem_cons.mp hre with rfl | hre'
        · exact absurd hkey hp
        · rw [List.map_cons, if_neg hp,
            List.countP_cons_of_neg _ _ (by simpa using hp)]
          exact ih hnd.2 hre'
  · push_neg at hex
    rw [save_insert store v (fun r hr => hex r hr), List.countP_append]
    have hzero : store.countP (fun r => decide (r.loan_id = v.loan_id)) = 0 := by
      rw [List.countP_eq_zero]
      intro x hx
      simpa using hex x hx
    simp [hzero]

/-- C5 (counterexample): the claim's "full overwrite of the existing row if
present" fails — the upsert's `DO UPDATE SET` omits `created_at`, so
projecting a history over a store that already holds a row for the same
loan id with a different `created_at` leaves that stored `created_at` in
place instead of the replayed state's value. -/
theorem C5_counterexample :
    (let row : LoanView :=
      { loan_id := ⟨1⟩, book_id := ⟨9⟩, member_id := ⟨9⟩, loaned_at := 50,
        due_date := 60, returned_at := none, extension_count := 0,
        status := .Active, created_at := 999, updated_at := 50 }
     let ev : DomainEvent := .bookLoaned
      { loan_id := ⟨1⟩, book_id := ⟨2⟩, member_id := ⟨3⟩, loaned_at := 0,
        due_date := durationDays 14, loaned_by := ⟨4⟩ }
     ∃ loan store',
       replay_events [ev] = .ok (some loan) ∧
       project_loan_events [row] [ev] = .ok store' ∧
       (build_loan_view_from_aggregate loan).created_at = 0 ∧
       store' ≠ [build_loan_view_from_aggregate loan] ∧
       store' = [{ build_loan_view_from_aggregate loan with created_at := 999 }]) := by
  refine ⟨_, _, rfl, rfl, rfl, ?_, rfl⟩
  intro hcontra
  have := List.head_eq_of_cons_eq hcontra
  have h999 : (999 : Int) = 0 := congrArg LoanView.created_at this
  omega

/-- C5 (amended): on an empty history `project` writes nothing and
succeeds; on a valid non-empty history it writes exactly one view row —
upserted keyed by loan id, inserted verbatim if absent, and on conflict
overwriting every field except `created_at`, which keeps the stored row's
value — whose remaining fields equal the mapping of the replayed final
state: status label derived from the final variant tag, `returned_at`
non-null exactly for Returned, and all `LoanCore` fields copied. -/
theorem C5_theorem :
    (∀ store, project_loan_events store [] = .ok store) ∧
    (∀ store events loan, replay_events events = .ok (some loan) →
      project_loan_events store events
        = .ok (LoanReadModel.save store (build_loan_view_from_aggregate loan))) ∧
    (∀ loan,
      (build_loan_view_from_aggregate loan).status = statusOf loan ∧
      ((build_loan_view_from_aggregate loan).returned_at ≠ none ↔
        statusOf loan = .Returned) ∧
      (build_loan_view_from_aggregate loan).loan_id = (loanCoreOf loan).loan_id ∧
      (build_loan_view_from_aggregate loan).book_id = (loanCoreOf loan).book_id ∧
      (build_loan_view_from_aggregate loan).member_id
        = (loanCoreOf loan).member_id ∧
      (build_loan_view_from_aggregate loan).loaned_at
        = (loanCoreOf loan).loaned_at ∧
      (build_loan_view_from_aggregate loan).due_date = (loanCoreOf loan).due_date ∧
      (build_loan_view_from_aggregate loan).extension_count
        = (loanCoreOf loan).extension_count.value ∧
      (build_loan_view_from_aggregate loan).created_at
        = (loanCoreOf loan).created_at ∧
      (build_loan_view_from_aggregate loan).updated_at
        = (loanCoreOf loan).updated_at) ∧
    (∀ store v, (∀ r ∈ store, r.loan_id ≠ v.loan_id) →
      LoanReadModel.save store v = store ++ [v]) ∧
    (∀ store v r₀,
      store.find? (fun r => decide (r.loan_id = v.loan_id)) = some r₀ →
      (LoanReadModel.save store v).find?
        (fun r => decide (r.loan_id = v.loan_id))
        = some { v with created_at := r₀.created_at }) ∧
    (∀ store v, (store.map (·.loan_id)).Nodup →
      (LoanReadModel.save store v).countP
        (fun r => decide (r.loan_id = v.loan_id)) = 1) := by
  refine ⟨?_, ?_, ?_, save_insert, save_overwrite, save_countP_one⟩
  · intro store; rfl
  · intro store events loan hre
    cases events with
    | nil => exact absurd (Except.ok.inj hre) (by simp)
    | cons e es =>
      rw [project_loan_events]
      simp only [List.isEmpty_cons, if_false, hre]
      rfl
  · intro loan
    cases loan with
    | active a => exact ⟨rfl, by simp [build_loan_view_from_aggregate, statusOf],
        rfl, rfl, rfl, rfl, rfl, rfl, rfl, rfl⟩
    | overdue o => exact ⟨rfl, by simp [build_loan_view_from_aggregate, statusOf],
        rfl, rfl, rfl, rfl, rfl, rfl, rfl, rfl⟩
    | returned r => exact ⟨rfl, by simp [build_loan_view_from_aggregate, statusOf],
        rfl, rfl, rfl, rfl, rfl, rfl, rfl, rfl⟩

/-- C5 witness: projecting the one-event history `[Loaned]` into an empty
store inserts exactly the view row of the replayed Active state. -/
theorem C5_witness :
    project_loan_events [] [.bookLoaned
      { loan_id := ⟨1⟩, book_id := ⟨2⟩, member_id := ⟨3⟩, loaned_at := 0,
        due_date := durationDays 14, loaned_by := ⟨4⟩ }]
      = .ok (LoanReadModel.save [] (build_loan_view_from_aggregate
          (.active { core := { loan_id := ⟨1⟩, book_id := ⟨2⟩,
                               member_id := ⟨3⟩, loaned_at := 0,
                               due_date := durationDays 14,
                               extension_count := ExtensionCount.new,
                               created_by := ⟨4⟩, created_at := 0,
                               updated_at := 0 } }))) := by
  exact C5_theorem.2.1 [] _ _ rfl

/-!
## Overdue detection sweep (`src/application/loan/overdue_detection.rs`)

The application state couples the event store, keyed per aggregate as the
`EventStore` port exposes it (`load` returns the aggregate's events in
append order, `append` adds to the end), with the `loans_view` rows.  The
sweep's I/O faults are out of scope of the embedding; the replay panic is
the `IntegrityFault` branch.
-/

/-- The two shared mutable resources the sweep touches (§5 of the spec):
the per-aggregate event log, as loaded/appended through the `EventStore`
port, and the view rows of the read model. -/
structure AppState where
  store : LoanId → List DomainEvent
  view : List LoanView

/-- The candidate filter of `LoanReadModel::find_overdue_candidates`
(`src/adapters/postgres/loan_read_model.rs`):
`status = 'active' AND due_date < $1`. -/
def candidatePred (now : Int) (r : LoanView) : Bool :=
  decide (r.status = LoanStatus.Active) && decide (r.due_date < now)

/-- `LoanReadModel::find_overdue_candidates`: the filtered rows,
`ORDER BY due_date ASC`. -/
def find_overdue_candidates (now : Int) (view : List LoanView) :
    List LoanView :=
  List.insertionSort (fun a b => a.due_date ≤ b.due_date)
    (view.filter (candidatePred now))

/-- `build_loan_view` (`src/application/loan/loan_service.rs`): the
application-layer aggregate-to-view mapping used by the sweep; its body is
the same per-variant mapping as the adapter's
`build_loan_view_from_aggregate`. -/
def build_loan_view (loan : LoanV2) : LoanView :=
  match loan with
  | .active a =>
    { loan_id := a.core.loan_id, book_id := a.core.book_id,
      member_id := a.core.member_id, loaned_at := a.core.loaned_at,
      due_date := a.core.due_date, returned_at := none,
      extension_count := a.core.extension_count.value, status := .Active,
      created_at := a.core.created_at, updated_at := a.core.updated_at }
  | .overdue o =>
    { loan_id := o.core.loan_id, book_id := o.core.book_id,
      member_id := o.core.member_id, loaned_at := o.core.loaned_at,
      due_date := o.core.due_date, returned_at := none,
      extension_count := o.core.extension_count.value, status := .Overdue,
      created_at := o.core.created_at, updated_at := o.core.updated_at }
  | .returned r =>
    { loan_id := r.core.loan_id, book_id := r.core.book_id,
      member_id := r.core.member_id, loaned_at := r.core.loaned_at,
      due_date := r.core.due_date, returned_at := some r.returned_at,
      extension_count := r.core.extension_count.value, status := .Returned,
      created_at := r.core.created_at, updated_at := r.core.updated_at }

/-- The candidate loop of `detect_overdue_loans`: for each candidate row,
load the full history, replay (skipping on an empty history), and — only
when the authoritative state is Active and overdue — append one
`LoanBecameOverdue` event, re-apply it, save the rebuilt view, and count
the transition. -/
def sweepGo (now : Int) : List LoanView → AppState → Nat →
    Except IntegrityFault (AppState × Nat)
  | [], s, n => .ok (s, n)
  | lv :: rest, s, n =>
    match replay_events (s.store lv.loan_id) with
    | .error f => .error f
    | .ok none => sweepGo now rest s n
    | .ok (some (.active active)) =>
      if is_overdue_v2 (.active active) now then
        let ev : LoanBecameOverdue :=
          { loan_id := active.core.loan_id, book_id := active.core.book_id,
            member_id := active.core.member_id,
            due_date := active.core.due_date, detected_at := now }
        let s1 : AppState :=
          { s with store := fun id =>
              if id = active.core.loan_id then
                s.store id ++ [.loanBecameOverdue ev]
              else s.store id }
        match apply_event (some (.active active)) (.loanBecameOverdue ev) with
        | .error f => .error f
        | .ok updated_loan =>
          sweepGo now rest
            { s1 with view :=
                LoanReadModel.save s1.view (build_loan_view updated_loan) }
            (n + 1)
      else sweepGo now rest s n
    | .ok (some _) => sweepGo now rest s n

/-- `detect_overdue_loans` (`src/application/loan/overdue_detection.rs`). -/
def detect_overdue_loans (s : AppState) (now : Int) :
    Except IntegrityFault (AppState × Nat) :=
  sweepGo now (find_overdue_candidates now s.view) s 0

/-- Whether the sweep transitions the loan behind a candidate row: the
authoritative replay of its history is Active and overdue at `now`.  This
depends on the row only through its key. -/
def transitioned (s : AppState) (now : Int) (r : LoanView) : Bool :=
  match replay_events (s.store r.loan_id) with
  | .ok (some (.active a)) => is_overdue_v2 (.active a) now
  | _ => false

/-- The view row after one sweep pass over candidates with keys `ks`: a row
whose loan was transitioned is overwritten (keeping `created_at`, as
`save` does) with the view of the Overdue successor state; all others are
untouched. -/
def rowAfter (s : AppState) (now : Int) (ks : List LoanId) (r : LoanView) :
    LoanView :=
  if r.loan_id ∈ ks then
    match replay_events (s.store r.loan_id) with
    | .ok (some (.active a)) =>
      if is_overdue_v2 (.active a) now then
        { build_loan_view (.overdue { core := { a.core with updated_at := now } })
          with created_at := r.created_at }
      else r
    | _ => r
  else r

/-- A well-formed store/view pair at a row: the replay of the row's history
does not fault, and a reconstructed state carries the row's loan id. -/
def CoherentAt (s : AppState) (r : LoanView) : Prop :=
  ∃ res, replay_events (s.store r.loan_id) = .ok res ∧
    ∀ loan, res = some loan → (loanCoreOf loan).loan_id = r.loan_id

lemma countP_congr_mem {α : Type} (l : List α) (p q : α → Bool)
    (h : ∀ a ∈ l, p a = q a) : l.countP p = l.countP q := by
  induction l with
  | nil => rfl
  | cons x xs ih =>
    rw [List.countP_cons, List.countP_cons, h x (by simp),
      ih (fun a ha => h a (by simp [ha]))]

/-- A sweep pass over candidates whose authoritative replay is clean but
never Active-and-overdue changes nothing and counts nothing. -/
lemma sweepGo_skip (now : Int) (cs : List LoanView) (s : AppState) (n : Nat)
    (h : ∀ r ∈ cs, ∃ res, replay_events (s.store r.loan_id) = .ok res ∧
      ∀ a, res = some (.active a) → is_overdue_v2 (.active a) now = false) :
    sweepGo now cs s n = .ok (s, n) := by
  induction cs with
  | nil => rfl
  | cons lv rest ih =>
    obtain ⟨res, hres, hna⟩ := h lv (by simp)
    have hrest : ∀ r ∈ rest, ∃ res,
        replay_events (s.store r.loan_id) = .ok res ∧
        ∀ a, res = some (.active a) → is_overdue_v2 (.active a) now = false :=
      fun r hr => h r (List.mem_cons_of_mem _ hr)
    rw [sweepGo, hres]
    cases res with
    | none => exact ih hrest
    | some loan =>
      cases loan with
      | active a =>
        have hov := hna a rfl
        simp only [hov, Bool.false_eq_true, if_false]
        exact ih hrest
      | overdue o => exact ih hrest
      | returned r => exact ih hrest

lemma rowAfter_mem (s : AppState) (now : Int) (ks : List LoanId)
    (r : LoanView) (h : r.loan_id ∈ ks) :
    rowAfter s now ks r
      = (match replay_events (s.store r.loan_id) with
        | .ok (some (.active a)) =>
          if is_overdue_v2 (.active a) now then
            { build_loan_view (.overdue { core := { a.core with updated_at := now } })
              with created_at := r.created_at }
          else r
        | _ => r) := by
  rw [rowAfter, if_pos h]

lemma rowAfter_not_mem (s : AppState) (now : Int) (ks : List LoanId)
    (r : LoanView) (h : r.loan_id ∉ ks) :
    rowAfter s now ks r = r := by
  rw [rowAfter, if_neg h]

lemma save_eq_map (store : List LoanView) (v : LoanView)
    (hex : ∃ r ∈ store, r.loan_id = v.loan_id) :
    LoanReadModel.save store v
      = store.map (fun r =>
          if r.loan_id = v.loan_id then { v with created_at := r.created_at }
          else r) := by
  obtain ⟨re, hre, hkey⟩ := hex
  have hany : store.any (fun r => decide (r.loan_id = v.loan_id)) = true := by
    rw [List.any_eq_true]
    exact ⟨re, hre, by simpa using hkey⟩
  rw [LoanReadModel.save, if_pos (by simpa using hany)]

lemma transitioned_store_eq (s s' : AppState) (now : Int) (r : LoanView)
    (h : s'.store r.loan_id = s.store r.loan_id) :
    transitioned s' now r = transitioned s now r := by
  rw [transitioned, transitioned, h]

/-- One full sweep pass, characterized: it succeeds, counts exactly the
candidates whose authoritative replay is Active-and-overdue, overwrites
exactly those candidates' view rows with the Overdue successor state,
appends exactly one `BecameOverdue` event per transitioned candidate, and
leaves every other aggregate's history untouched. -/
lemma sweepGo_spec (now : Int) :
    ∀ (cs : List LoanView) (s : AppState) (n : Nat),
    (cs.map (·.loan_id)).Nodup →
    (∀ r ∈ cs, CoherentAt s r) →
    (∀ r ∈ cs, r ∈ s.view) →
    ∃ s', sweepGo now cs s n
        = .ok (s', n + cs.countP (transitioned s now)) ∧
      s'.view = s.view.map (rowAfter s now (cs.map (·.loan_id))) ∧
      (∀ id, id ∉ cs.map (·.loan_id) → s'.store id = s.store id) ∧
      (∀ r ∈ cs, transitioned s now r = true →
        ∃ ev : LoanBecameOverdue, ev.detected_at = now ∧
          s'.store r.loan_id
            = s.store r.loan_id ++ [.loanBecameOverdue ev]) ∧
      (∀ r ∈ cs, transitioned s now r = false →
        s'.store r.loan_id = s.store r.loan_id) := by
  intro cs
  induction cs with
  | nil =>
    intro s n hnd hco hview
    refine ⟨s, by simp [sweepGo], ?_, by simp, by simp, by simp⟩
    have : ∀ r ∈ s.view, rowAfter s now (([] : List LoanView).map (·.loan_id)) r
        = r := by
      intro r hr
      exact rowAfter_not_mem s now _ r (by simp)
    rw [List.map_congr_left this]
    simp
  | cons lv rest ih =>
    intro s n hnd hco hview
    have hndr : (rest.map (·.loan_id)).Nodup := (List.nodup_cons.mp hnd).2
    have hlvk : lv.loan_id ∉ rest.map (·.loan_id) := by
      simpa using (List.nodup_cons.mp hnd).1
    have hcor : ∀ r ∈ rest, CoherentAt s r :=
      fun r hr => hco r (List.mem_cons_of_mem _ hr)
    have hvr : ∀ r ∈ rest, r ∈ s.view :=
      fun r hr => hview r (List.mem_cons_of_mem _ hr)
    have hkey_ne : ∀ r ∈ rest, r.loan_id ≠ lv.loan_id := by
      intro r hr hc
      exact hlvk (hc ▸ List.mem_map_of_mem (·.loan_id) hr)
    obtain ⟨res, hres, hid⟩ := hco lv (by simp)
    -- the shared skip argument: nothing happens for this candidate
    have main_skip : transitioned s now lv = false →
        ∃ s', sweepGo now rest s n
            = .ok (s', n + (lv :: rest).countP (transitioned s now)) ∧
          s'.view = s.view.map (rowAfter s now ((lv :: rest).map (·.loan_id))) ∧
          (∀ id, id ∉ (lv :: rest).map (·.loan_id) → s'.store id = s.store id) ∧
          (∀ r ∈ lv :: rest, transitioned s now r = true →
            ∃ ev : LoanBecameOverdue, ev.detected_at = now ∧
              s'.store r.loan_id
                = s.store r.loan_id ++ [.loanBecameOverdue ev]) ∧
          (∀ r ∈ lv :: rest, transitioned s now r = false →
            s'.store r.loan_id = s.store r.loan_id) := by
      intro htlv
      obtain ⟨s', h1, h2, h3, h4, h5⟩ := ih s n hndr hcor hvr
      refine ⟨s', ?_, ?_, ?_, ?_, ?_⟩
      · rw [h1, List.countP_cons_of_neg _ _ (by simp [htlv])]
      · rw [h2, List.map_cons]
        apply List.map_congr_left
        intro r hr
        by_cases hk : r.loan_id ∈ rest.map (·.loan_id)
        · rw [rowAfter_mem s now _ r hk,
            rowAfter_mem s now _ r (List.mem_cons_of_mem _ hk)]
        · by_cases hkl : r.loan_id = lv.loan_id
          · rw [rowAfter_not_mem s now _ r hk,
              rowAfter_mem s now _ r (by simp [hkl]), hkl, hres]
            have htlv' := htlv
            rw [transitioned, hres] at htlv'
            cases res with
            | none => rfl
            | some loan =>
              cases loan with
              | active a =>
                simp only at htlv'
                simp [htlv']
              | overdue o => rfl
              | returned rr => rfl
          · rw [rowAfter_not_mem s now _ r hk,
              rowAfter_not_mem s now _ r (by simp [hkl, hk])]
      · intro id hid'
        exact h3 id (fun hmem => hid' (by simp [hmem]))
      · intro r hr htrue
        rcases List.mem_cons.mp hr with rfl | hr'
        · rw [htlv] at htrue
          exact absurd htrue (by simp)
        · exact h4 r hr' htrue
      · intro r hr hfalse
        rcases List.mem_cons.mp hr with rfl | hr'
        · exact h3 r.loan_id hlvk
        · exact h5 r hr' hfalse
    rw [sweepGo, hres]
    cases res with
    | none =>
      exact main_skip (by rw [transitioned, hres])
    | some loan =>
      cases loan with
      | overdue o => exact main_skip (by rw [transitioned, hres])
      | returned rr => exact main_skip (by rw [transitioned, hres])
      | active a =>
        by_cases hov : is_overdue_v2 (.active a) now = true
        case neg =>
          dsimp only
          rw [if_neg hov]
          exact main_skip (by rw [transitioned, hres]; simpa using hov)
        case pos =>
          dsimp only
          rw [if_pos hov]
          have hida : a.core.loan_id = lv.loan_id := hid (.active a) rfl
          have htlv : transitioned s now lv = true := by
            rw [transitioned, hres]
            exact hov
          have happly : apply_event (some (.active a)) (.loanBecameOverdue
              { loan_id := a.core.loan_id, book_id := a.core.book_id,
                member_id := a.core.member_id, due_date := a.core.due_date,
                detected_at := now })
              = .ok (.overdue { core := { a.core with updated_at := now } }) := by
            simp [apply_event]
          rw [happly]
          -- the state after this candidate's transition
          set newv : LoanView := build_loan_view
            (.overdue { core := { a.core with updated_at := now } }) with hnewv
          have hnewvid : newv.loan_id = lv.loan_id := by
            rw [hnewv]
            simpa [build_loan_view] using hida
          set s₂ : AppState :=
            { store := fun id =>
                if id = a.core.loan_id then
                  s.store id ++ [.loanBecameOverdue
                    { loan_id := a.core.loan_id, book_id := a.core.book_id,
                      member_id := a.core.member_id,
                      due_date := a.core.due_date, detected_at := now }]
                else s.store id,
              view := LoanReadModel.save s.view newv } with hs₂
          have hs₂store : ∀ id, id ≠ lv.loan_id → s₂.store id = s.store id := by
            intro id hne
            show (if id = a.core.loan_id then _ else s.store id) = s.store id
            rw [if_neg (by rw [hida]; exact hne)]
          have hs₂store_lv : s₂.store lv.loan_id
              = s.store lv.loan_id ++ [.loanBecameOverdue
                  { loan_id := a.core.loan_id, book_id := a.core.book_id,
                    member_id := a.core.member_id,
                    due_date := a.core.due_date, detected_at := now }] := by
            show (if lv.loan_id = a.core.loan_id then _ else _) = _
            rw [if_pos hida.symm]
          have hsave : s₂.view = s.view.map (fun r =>
              if r.loan_id = lv.loan_id
              then { newv with created_at := r.created_at } else r) := by
            show LoanReadModel.save s.view newv = _
            rw [save_eq_map s.view newv
              ⟨lv, hview lv (by simp), by rw [hnewvid]⟩]
            apply List.map_congr_left
            intro r hr
            rw [hnewvid]
          have hcor₂ : ∀ r ∈ rest, CoherentAt s₂ r := by
            intro r hr
            obtain ⟨res', hres', hid'⟩ := hcor r hr
            exact ⟨res', by rw [hs₂store r.loan_id (hkey_ne r hr)]; exact hres',
              hid'⟩
          have hvr₂ : ∀ r ∈ rest, r ∈ s₂.view := by
            intro r hr
            rw [hsave]
            exact List.mem_map.mpr ⟨r, hvr r hr, by simp [hkey_ne r hr]⟩
          obtain ⟨s', h1, h2, h3, h4, h5⟩ := ih s₂ (n + 1) hndr hcor₂ hvr₂
          have htr₂ : ∀ r ∈ rest, transitioned s₂ now r = transitioned s now r :=
            fun r hr => transitioned_store_eq s s₂ now r
              (hs₂store r.loan_id (hkey_ne r hr))
          have hcount : n + (lv :: rest).countP (transitioned s now)
              = (n + 1) + rest.countP (transitioned s₂ now) := by
            rw [List.countP_cons_of_pos _ _ (by simp [htlv]),
              countP_congr_mem rest _ _ htr₂]
            omega
          refine ⟨s', ?_, ?_, ?_, ?_, ?_⟩
          · rw [hcount]
            exact h1
          · rw [h2, hsave, List.map_map, List.map_cons]
            apply List.map_congr_left
            intro r hr
            simp only [Function.comp_apply]
            by_cases hkl : r.loan_id = lv.loan_id
            · rw [if_pos hkl]
              have hkeep : ({ newv with created_at := r.created_at } :
                  LoanView).loan_id = lv.loan_id := hnewvid
              rw [rowAfter_not_mem s₂ now _ _ (by rw [hkeep]; exact hlvk),
                rowAfter_mem s now _ r (by simp [hkl]), hkl, hres, hnewv]
              simp [hov]
            · rw [if_neg hkl]
              by_cases hk : r.loan_id ∈ rest.map (·.loan_id)
              · rw [rowAfter_mem s₂ now _ r hk,
                  rowAfter_mem s now _ r (List.mem_cons_of_mem _ hk),
                  hs₂store r.loan_id hkl]
              · rw [rowAfter_not_mem s₂ now _ r hk,
                  rowAfter_not_mem s now _ r (by simp [hkl, hk])]
          · intro id hid'
            have hne : id ≠ lv.loan_id := fun hc => hid' (by simp [hc])
            rw [h3 id (fun hmem => hid' (by simp [hmem])), hs₂store id hne]
          · intro r hr htrue
            rcases List.mem_cons.mp hr with rfl | hr'
            · refine ⟨{ loan_id := a.core.loan_id, book_id := a.core.book_id,
                        member_id := a.core.member_id,
                        due_date := a.core.due_date, detected_at := now },
                      rfl, ?_⟩
              rw [h3 r.loan_id hlvk, hs₂store_lv]
            · obtain ⟨ev, hev, hst⟩ := h4 r hr' (by rw [htr₂ r hr']; exact htrue)
              exact ⟨ev, hev, by
                rw [hst, hs₂store r.loan_id (hkey_ne r hr')]⟩
          · intro r hr hfalse
            rcases List.mem_cons.mp hr with rfl | hr'
            · rw [htlv] at hfalse
              exact absurd hfalse (by simp)
            · rw [h5 r hr' (by rw [htr₂ r hr']; exact hfalse),
                hs₂store r.loan_id (hkey_ne r hr')]

lemma mem_candidates {now : Int} {view : List LoanView} {w : LoanView} :
    w ∈ find_overdue_candidates now view
      ↔ w ∈ view ∧ candidatePred now w = true := by
  rw [find_overdue_candidates,
    (List.perm_insertionSort (fun a b : LoanView => a.due_date ≤ b.due_date)
      (view.filter (candidatePred now))).mem_iff]
  exact List.mem_filter

lemma candidates_keys_nodup (now : Int) (view : List LoanView)
    (h : (view.map (·.loan_id)).Nodup) :
    ((find_overdue_candidates now view).map (·.loan_id)).Nodup := by
  rw [find_overdue_candidates]
  refine (((List.perm_insertionSort
    (fun a b : LoanView => a.due_date ≤ b.due_date)
    (view.filter (candidatePred now))).map (·.loan_id)).nodup_iff).mpr ?_
  exact List.Nodup.sublist ((view.filter_sublist (p := candidatePred now)).map
    (·.loan_id)) h

lemma transitioned_key_eq (s : AppState) (now : Int) (r r' : LoanView)
    (h : r.loan_id = r'.loan_id) :
    transitioned s now r = transitioned s now r' := by
  rw [transitioned, transitioned, h]

/-- C6: the sweep is idempotent per loan.  In any well-formed state (view
keys unique; every candidate's history replays cleanly to a state carrying
its row's loan id) in which the sweep at `now` transitions a candidate
`L` (status active, due date past, authoritative replay Active and
overdue), the run succeeds, appends exactly one `BecameOverdue` event for
`L`, and its count is exactly the number of candidates actually
transitioned; an immediately following second sweep sees `L` fail the
candidate filter's Active condition, changes nothing at all — in
particular it appends no further `BecameOverdue` for `L` and transitions 0
loans — and returns count 0. -/
theorem C6_theorem :
    ∀ (s : AppState) (now : Int) (L : LoanView),
    (s.view.map (·.loan_id)).Nodup →
    (∀ r ∈ find_overdue_candidates now s.view, CoherentAt s r) →
    L ∈ find_overdue_candidates now s.view →
    transitioned s now L = true →
    ∃ s₁ n, detect_overdue_loans s now = .ok (s₁, n) ∧
      n = (find_overdue_candidates now s.view).countP (transitioned s now) ∧
      (∃ ev : LoanBecameOverdue, ev.detected_at = now ∧
        s₁.store L.loan_id = s.store L.loan_id ++ [.loanBecameOverdue ev]) ∧
      (∀ w ∈ find_overdue_candidates now s₁.view, w.loan_id ≠ L.loan_id) ∧
      detect_overdue_loans s₁ now = .ok (s₁, 0) := by
  intro s now L hnd hco hL htr
  have hcnd := candidates_keys_nodup now s.view hnd
  have hcv : ∀ r ∈ find_overdue_candidates now s.view, r ∈ s.view :=
    fun r hr => (mem_candidates.mp hr).1
  obtain ⟨s₁, h1, h2, h3, h4, h5⟩ :=
    sweepGo_spec now (find_overdue_candidates now s.view) s 0 hcnd hco hcv
  -- every candidate of the second pass is an untransitioned candidate of
  -- the first, with its history untouched
  have hW : ∀ w ∈ find_overdue_candidates now s₁.view,
      w ∈ find_overdue_candidates now s.view ∧
        transitioned s now w = false := by
    intro w hw
    obtain ⟨hw₁, hpred⟩ := mem_candidates.mp hw
    rw [h2] at hw₁
    obtain ⟨r, hr, hrw⟩ := List.mem_map.mp hw₁
    by_cases hks : r.loan_id
        ∈ (find_overdue_candidates now s.view).map (·.loan_id)
    · rw [rowAfter_mem s now _ r hks] at hrw
      cases hrep : replay_events (s.store r.loan_id) with
      | error f =>
        rw [hrep] at hrw
        obtain rfl : r = w := hrw
        refine ⟨mem_candidates.mpr ⟨hr, hpred⟩, ?_⟩
        rw [transitioned, hrep]
      | ok res =>
        cases res with
        | none =>
          rw [hrep] at hrw
          obtain rfl : r = w := hrw
          refine ⟨mem_candidates.mpr ⟨hr, hpred⟩, ?_⟩
          rw [transitioned, hrep]
        | some loan =>
          cases loan with
          | active a =>
            rw [hrep] at hrw
            dsimp only at hrw
            by_cases hov : is_overdue_v2 (.active a) now = true
            · rw [if_pos hov] at hrw
              exfalso
              have hst : w.status = .Overdue := by
                rw [← hrw]
                rfl
              rw [candidatePred, hst] at hpred
              simp at hpred
            · rw [if_neg hov] at hrw
              obtain rfl : r = w := hrw
              refine ⟨mem_candidates.mpr ⟨hr, hpred⟩, ?_⟩
              rw [transitioned, hrep]
              simpa using hov
          | overdue o =>
            rw [hrep] at hrw
            obtain rfl : r = w := hrw
            refine ⟨mem_candidates.mpr ⟨hr, hpred⟩, ?_⟩
            rw [transitioned, hrep]
          | returned rr =>
            rw [hrep] at hrw
            obtain rfl : r = w := hrw
            refine ⟨mem_candidates.mpr ⟨hr, hpred⟩, ?_⟩
            rw [transitioned, hrep]
    · rw [rowAfter_not_mem s now _ r hks] at hrw
      obtain rfl : r = w := hrw
      exact absurd (List.mem_map_of_mem (·.loan_id)
        (mem_candidates.mpr ⟨hr, hpred⟩)) hks
  refine ⟨s₁, _, h1, by omega, h4 L hL htr, ?_, ?_⟩
  · intro w hw hkey
    have := (hW w hw).2
    rw [transitioned_key_eq s now w L hkey, htr] at this
    exact absurd this (by simp)
  · show sweepGo now (find_overdue_candidates now s₁.view) s₁ 0 = .ok (s₁, 0)
    apply sweepGo_skip
    intro w hw
    obtain ⟨hwc, hwf⟩ := hW w hw
    have hstore : s₁.store w.loan_id = s.store w.loan_id := h5 w hwc hwf
    obtain ⟨res, hres, _⟩ := hco w hwc
    refine ⟨res, by rw [hstore]; exact hres, ?_⟩
    intro a ha
    subst ha
    rw [transitioned, hres] at hwf
    simpa using hwf

/-- Scenario D fixture: the view row for one loan, due 14 days after `T0 =
0`, still marked active. -/
def scenarioRow : LoanView :=
  { loan_id := ⟨1⟩, book_id := ⟨2⟩, member_id := ⟨3⟩, loaned_at := 0,
    due_date := durationDays 14, returned_at := none, extension_count := 0,
    status := .Active, created_at := 0, updated_at := 0 }

/-- Scenario D fixture: event store holding just that loan's `Loaned`
event, plus the view above. -/
def scenarioState : AppState :=
  { store := fun id =>
      if id = ⟨1⟩ then
        [.bookLoaned { loan_id := ⟨1⟩, book_id := ⟨2⟩, member_id := ⟨3⟩,
                       loaned_at := 0, due_date := durationDays 14,
                       loaned_by := ⟨4⟩ }]
      else [],
    view := [scenarioRow] }

/-- C6 witness (scenario D): sweeping at `T0 + 15d` over the candidate due
at `T0 + 14d` emits one `BecameOverdue` event; the second sweep excludes
the loan from the candidates and transitions nothing, returning 0. -/
theorem C6_witness :
    ∃ s₁ n, detect_overdue_loans scenarioState (durationDays 15)
        = .ok (s₁, n) ∧
      n = (find_overdue_candidates (durationDays 15)
            scenarioState.view).countP
            (transitioned scenarioState (durationDays 15)) ∧
      (∃ ev : LoanBecameOverdue, ev.detected_at = durationDays 15 ∧
        s₁.store scenarioRow.loan_id
          = scenarioState.store scenarioRow.loan_id
              ++ [.loanBecameOverdue ev]) ∧
      (∀ w ∈ find_overdue_candidates (durationDays 15) s₁.view,
        w.loan_id ≠ scenarioRow.loan_id) ∧
      detect_overdue_loans s₁ (durationDays 15) = .ok (s₁, 0) := by
  apply C6_theorem scenarioState (durationDays 15) scenarioRow
  · simp [scenarioState]
  · intro r hr
    have hrL : r = scenarioRow := by
      have := (mem_candidates.mp hr).1
      simpa [scenarioState] using this
    subst hrL
    refine ⟨some (.active { core := { loan_id := ⟨1⟩, book_id := ⟨2⟩,
                                      member_id := ⟨3⟩, loaned_at := 0,
                                      due_date := durationDays 14,
                                      extension_count := ExtensionCount.new,
                                      created_by := ⟨4⟩, created_at := 0,
                                      updated_at := 0 } }), rfl, ?_⟩
    intro loan h
    injection h with h'
    subst h'
    decide
  · decide
  · decide

end RustyLibrary
